import Mathlib

/-!
Verification of the Ou3a-Joura backend (pothole detection pipeline).

Shallow embedding of `app/processing.py` and `app/main.py` over `ℚ`.
Conventions:
* floating point scalars become `ℚ`; a value that can be `NaN`/missing in the
  data frame becomes `Option ℚ` with `none` playing the role of `NaN`
  (pandas comparisons against `NaN` are false, which the embedding makes
  explicit case by case);
* the floating-point signal-processing front end (lines 112-246 of
  `processing.py`: data-frame construction, gravity estimation, rolling
  median/MAD z-scores, stability windows) computes with `exp`, `sqrt` and
  `arccos` and is therefore modelled as an arbitrary function `F` from the
  raw samples to the per-sample feature rows; everything downstream of it
  (thresholding, peak test, debounce, per-trip clustering) is translated
  statement by statement from the source;
* `math.exp` in the confidence model of `main.py` is modelled by an abstract
  strictly-positive monotone function, and SHA-1 cluster ids by an abstract
  string-valued function, since neither value is inspected by any property.
-/

namespace OuaaJoura

attribute [local semireducible] Rat.add Rat.sub Rat.mul Rat.inv

/-- `float(np.clip(x, 0.0, 1.0))` (processing.py line 239). -/
def clip01 (x : ℚ) : ℚ := max 0 (min 1 x)

/-- One row of the per-sample feature frame produced by lines 112-246 of
`processing.py`.  `ts` is the parsed timestamp in seconds (`none` = `NaT`),
`z` the robust z-score column (`none` = `NaN`), `speed` the `speed_mps`
column (`none` = `NaN`), and `stabilityRaw` the raw per-window stability
score before clipping (`none` = row whose 1-second window got no metrics). -/
structure Row where
  ts : Option ℚ
  lat : Option ℚ
  lon : Option ℚ
  speed : Option ℚ
  z : Option ℚ
  stabilityRaw : Option ℚ
  deriving DecidableEq

/-- `_stability_label` (processing.py lines 45-56); `none` models a
non-finite score. -/
def stability_label (score : Option ℚ) : String :=
  match score with
  | none => "unknown"
  | some s => if s < 1/4 then "stable" else if s < 13/20 then "loose" else "handheld"

/-- The `stability` column: window score clipped to `[0,1]` (line 239),
rows with no window metrics filled with `0.0` (line 245). -/
def Row.stability (r : Row) : ℚ :=
  match r.stabilityRaw with
  | some s => clip01 s
  | none => 0

/-- The `mount_state` column: `_stability_label` of the clipped window score
(line 243), `"stable"` for rows with no window metrics (line 246). -/
def Row.mount_state (r : Row) : String :=
  match r.stabilityRaw with
  | some s => stability_label (some (clip01 s))
  | none => "stable"

/-- `base_z = 3.5` (line 250). -/
def base_z : ℚ := 7/2

/-- `base_debounce = 1.0` (line 251). -/
def base_debounce : ℚ := 1

/-- `df["z_thresh"] = base_z + df["stability"]` (line 254). -/
def Row.z_thresh (r : Row) : ℚ := base_z + r.stability

/-- Pandas `a > b` where `a` is a z value (`NaN` compares false) and `b` is a
shifted z column after `.fillna(-np.inf)` (missing or `NaN` neighbour becomes
`-inf`, which every rational exceeds).  Models line 267. -/
def gtOpt (zi zp : Option ℚ) : Bool :=
  match zi, zp with
  | none, _ => false
  | some _, none => true
  | some z, some p => decide (p < z)

/-- Pandas `a >= b` with the same `NaN` conventions; models line 268. -/
def geOpt (zi zn : Option ℚ) : Bool :=
  match zi, zn with
  | none, _ => false
  | some _, none => true
  | some z, some n => decide (n ≤ z)

/-- `df["z"].shift(1)` at index `i`: the previous row's z, `none` when there
is no previous row or its z is `NaN`. -/
def zPrev (rows : List Row) (i : ℕ) : Option ℚ :=
  if i = 0 then none else (rows[i-1]?).bind fun r => r.z

/-- `df["z"].shift(-1)` at index `i`. -/
def zNext (rows : List Row) (i : ℕ) : Option ℚ :=
  (rows[i+1]?).bind fun r => r.z

/-- `df["is_peak"]` (lines 266-269). -/
def is_peak (rows : List Row) (i : ℕ) (r : Row) : Bool :=
  gtOpt r.z (zPrev rows i) && geOpt r.z (zNext rows i)

/-- `has_speed = speed_series.notna().any()` (line 258). -/
def hasSpeed (rows : List Row) : Bool :=
  rows.any fun r => r.speed.isSome

/-- `speed_ok` (lines 259-263): when some sample in the trip has a GPS speed,
`speed_series.fillna(0.0) >= 3.0`; otherwise the gate is skipped. -/
def speed_ok (rows : List Row) (r : Row) : Bool :=
  if hasSpeed rows then decide (3 ≤ r.speed.getD 0) else true

/-- `df["z"] > df["z_thresh"]` at one row (`NaN` z compares false). -/
def zGtThresh (r : Row) : Bool :=
  match r.z with
  | none => false
  | some z => decide (r.z_thresh < z)

/-- The candidate mask of lines 272-276. -/
def isCandidate (rows : List Row) (i : ℕ) (r : Row) : Bool :=
  is_peak rows i r && zGtThresh r && speed_ok rows r

/-- The `candidates` data frame together with the positional index of each
kept row (lines 272-276). -/
def candidatesIdx (rows : List Row) : List (ℕ × Row) :=
  rows.enum.filter fun p => isCandidate rows p.1 p.2

/-- The `candidates` rows in order (lines 272-276). -/
def candidates (rows : List Row) : List Row :=
  (candidatesIdx rows).map Prod.snd

/-- One emitted detection dict (lines 294-303). -/
structure Detection where
  ts : ℚ
  lat : Option ℚ
  lon : Option ℚ
  intensity : ℚ
  stability : ℚ
  mount_state : String
  deriving DecidableEq

/-- The dict appended at lines 294-303 for candidate row `r` whose parsed
timestamp is `ts`.  `intensity` is `float(r["z"])` with `NaN` mapped to `0.0`
(line 299); `stab` of line 287 equals `r.stability` because the stability
column is never `NaN` (the map values are clipped floats and missing windows
are filled with `0.0`). -/
def mkDet (r : Row) (ts : ℚ) : Detection :=
  { ts := ts, lat := r.lat, lon := r.lon,
    intensity := r.z.getD 0, stability := r.stability,
    mount_state := r.mount_state }

/-- The stability-aware debounce loop (lines 278-305).  `lastTs`/`lastStab`
are the loop variables `last_ts` (initially `None`) and `last_stability`
(initially `0.0`); candidate rows with `NaT` timestamp are skipped
(line 284-285). -/
def debounceAux (lastTs : Option ℚ) (lastStab : ℚ) : List Row → List Detection
  | [] => []
  | r :: rest =>
    match r.ts with
    | none => debounceAux lastTs lastStab rest
    | some ts =>
      match lastTs with
      | none => mkDet r ts :: debounceAux (some ts) r.stability rest
      | some t =>
        if ts - t < base_debounce * (1 + max r.stability lastStab) then
          debounceAux lastTs lastStab rest
        else
          mkDet r ts :: debounceAux (some ts) r.stability rest

/-- The detection list returned by `process_trip_payload` for a given feature
frame: the debounce loop run over the candidate rows. -/
def detectionsOf (rows : List Row) : List Detection :=
  debounceAux none 0 (candidates rows)

/-- Concrete feature row used in witnesses: timestamp `t` seconds, z-score
`z`, no GPS and no window metrics. -/
def wrow (t : ℚ) (z : Option ℚ) : Row :=
  { ts := some t, lat := none, lon := none, speed := none, z := z,
    stabilityRaw := none }

/-- Concrete five-sample trip with two clear z-peaks two seconds apart. -/
def wrows : List Row :=
  [wrow 0 (some 0), wrow 1 (some 10), wrow 2 (some 0),
   wrow 3 (some 10), wrow 4 (some 0)]

/-- Concrete feature row with GPS speed. -/
def crow (t z sp : ℚ) : Row :=
  { ts := some t, lat := none, lon := none, speed := some sp, z := some z,
    stabilityRaw := none }

/-- Concrete trip with one accepted candidate (index 1, z = 10) and a larger
z-spike (index 3, z = 20) that the speed gate rejects. -/
def crows : List Row :=
  [crow 0 0 5, crow 1 10 5, crow 2 5 5, crow 3 20 0, crow 4 0 5]

/-- The separation the debounce loop enforces between two accepted
detections (the claim's lower bound on timestamp gaps). -/
def sepR (a b : Detection) : Prop :=
  a.ts + base_debounce * (1 + max a.stability b.stability) ≤ b.ts

/-- Modelled from the spec (the repository's `process_trip_payload` contains
no peak-refinement step): the z-scores present within ±5 samples of index
`i`, as the spec's "within ±5 samples of each candidate" window. -/
def specWindowZs (rows : List Row) (i : ℕ) : List ℚ :=
  ((List.range rows.length).filter fun j =>
      decide (i - 5 ≤ j) && decide (j ≤ i + 5)).filterMap
    fun j => (rows[j]?).bind fun r => r.z

/-- Modelled from the spec: the refined canonical-peak z-score for the
candidate at index `i`, "the argmax of z" over the ±5-sample window. -/
def specRefinedPeakZ (rows : List Row) (i : ℕ) : Option ℚ :=
  match specWindowZs rows i with
  | [] => none
  | z :: zs => some (zs.foldl max z)

/-- `_compute_confidence` (main.py lines 182-234).  `E` models `math.exp`
(noncomputable over `ℚ`), which the code applies at `-hits/3`,
`-(avg_intensity-4)/2` and `-delta_days/60`; every property proved of this
definition assumes only that `E` is monotone and strictly positive, as
`exp` is.  Arguments follow the Python signature; timestamps are seconds. -/
def compute_confidence (E : ℚ → ℚ) (hits users total_trips : ℤ)
    (avg_intensity avg_stability : ℚ) (last_ts now_utc : ℚ) : ℚ :=
  if total_trips ≤ 0 ∨ hits ≤ 0 ∨ users ≤ 0 then 0
  else
    let coverage := clip01 ((users : ℚ) / (total_trips : ℚ))
    let hits_term := 1 - E (-(hits : ℚ) / 3)
    let intensity_term := clip01 (1 / (1 + E (-(avg_intensity - 4) / 2)))
    let stability_quality := 1 - clip01 avg_stability
    let delta_days := max 0 ((now_utc - last_ts) / 86400)
    let recency_term := E (-delta_days / 60)
    let confidence_raw := 45/100 * coverage + 25/100 * hits_term
      + 20/100 * intensity_term + 10/100 * stability_quality
    clip01 (confidence_raw * recency_term)

/-- A computable monotone positive stand-in for `exp`, used only to witness
`compute_confidence_mono_hits` on concrete inputs. -/
def expLike (x : ℚ) : ℚ := max 1 (x + 1)

/-- One cluster object built by `_cluster_potholes_from_df`
(main.py lines 327-348). -/
structure ApiCluster where
  cluster_id : String
  latitude : ℚ
  longitude : ℚ
  hits : ℕ
  users : ℕ
  last_ts : ℚ
  avg_intensity : ℚ
  avg_stability : ℚ
  exposure : ℚ
  confidence : ℚ
  priority : ℚ
  likelihood : String
  deriving DecidableEq

/-- Insertion into an ascending list. -/
def insertLe (x : ℚ) : List ℚ → List ℚ
  | [] => [x]
  | y :: ys => if x ≤ y then x :: y :: ys else y :: insertLe x ys

/-- Ascending sort (insertion sort); models the internal sort of
`np.quantile`. -/
def sortAsc (xs : List ℚ) : List ℚ := xs.foldr insertLe []

/-- Linear interpolation of a sorted list at virtual index `pos`, as
`np.quantile`'s default `"linear"` method computes it:
`a[floor pos] + (pos - floor pos) * (a[ceil pos] - a[floor pos])`. -/
def linInterp (s : List ℚ) (pos : ℚ) : ℚ :=
  s.getD (Int.floor pos).toNat 0 +
    (pos - ((Int.floor pos : ℤ) : ℚ)) *
      (s.getD (Int.ceil pos).toNat 0 - s.getD (Int.floor pos).toNat 0)

/-- `np.quantile(xs, q)` (linear method): interpolate the sorted data at
virtual index `q * (n - 1)`. -/
def npQuantile (q : ℚ) (xs : List ℚ) : ℚ :=
  linInterp (sortAsc xs) (q * (((sortAsc xs).length : ℚ) - 1))

/-- Modelled from the spec: "75th percentile of cluster confidences
(linear-interpolated quantile; if only one cluster, that cluster's
confidence)", in the style of the repository's own `percentile` helper in
`export_geojson.py`: `k = (n-1)·q`, `f = ⌊k⌋`, `c = ⌈k⌉`, value
`vals[k]` when `f = c`, else `vals[f]·(c-k) + vals[c]·(k-f)`. -/
def specPctAux (vals : List ℚ) : ℚ :=
  if vals.length ≤ 1 then vals.getD 0 0
  else if Int.floor ((3/4 : ℚ) * ((vals.length : ℚ) - 1)) =
      Int.ceil ((3/4 : ℚ) * ((vals.length : ℚ) - 1)) then
    vals.getD (Int.floor ((3/4 : ℚ) * ((vals.length : ℚ) - 1))).toNat 0
  else
    vals.getD (Int.floor ((3/4 : ℚ) * ((vals.length : ℚ) - 1))).toNat 0 *
        ((Int.ceil ((3/4 : ℚ) * ((vals.length : ℚ) - 1)) : ℚ) -
          (3/4 : ℚ) * ((vals.length : ℚ) - 1)) +
      vals.getD (Int.ceil ((3/4 : ℚ) * ((vals.length : ℚ) - 1))).toNat 0 *
        ((3/4 : ℚ) * ((vals.length : ℚ) - 1) -
          (Int.floor ((3/4 : ℚ) * ((vals.length : ℚ) - 1)) : ℚ))

/-- Modelled from the spec: the 75th percentile, applied to the sorted
confidences. -/
def specPercentile75 (xs : List ℚ) : ℚ := specPctAux (sortAsc xs)

/-- The query-shaping threshold of main.py lines 438-446: `min_conf` floored
at 0 outside dashboard mode; in dashboard mode `min_conf` when positive,
else the 75th `np.quantile` of the confidences (0 for an empty list). -/
def codeTheta (dashboard : Bool) (min_conf : ℚ) (confidences : List ℚ) : ℚ :=
  if dashboard then
    if 0 < min_conf then min_conf
    else if 0 < confidences.length then npQuantile (3/4) confidences else 0
  else max 0 min_conf

/-- main.py lines 450-451: truncate to `limit` entries only when
`limit > 0` and the filtered list is longer than `limit`. -/
def codeLimit (limit : ℤ) (filtered : List ApiCluster) : List ApiCluster :=
  if 0 < limit ∧ limit < (filtered.length : ℤ) then filtered.take limit.toNat
  else filtered

/-- The query shaping of `get_clusters` (main.py lines 436-453): keep the
clusters whose confidence reaches the threshold, then apply the limit. -/
def shape_clusters (clusters : List ApiCluster) (min_conf : ℚ) (limit : ℤ)
    (dashboard : Bool) : List ApiCluster :=
  codeLimit limit (clusters.filter fun c =>
    decide (codeTheta dashboard min_conf
      (clusters.map fun x => x.confidence) ≤ c.confidence))

/-- Modelled from the spec: the threshold selection of spec section 4.8. -/
def specTheta (dashboard : Bool) (min_conf : ℚ) (confs : List ℚ) : ℚ :=
  if dashboard then
    if 0 < min_conf then min_conf else specPercentile75 confs
  else max 0 min_conf

/-- One raw payload sample (the JSON objects of `payload["samples"]`);
`none` models an absent field, so a data-frame column exists iff some
sample has the field. -/
structure Sample where
  timestamp : Option String
  latitude : Option ℚ
  longitude : Option ℚ
  accuracy_m : Option ℚ
  speed_mps : Option ℚ
  accel : Option (ℚ × ℚ × ℚ)
  gyro : Option (ℚ × ℚ × ℚ)
  deriving DecidableEq

/-- `eps_deg = 12.0 / 111_111.0` (processing.py line 314). -/
def eps_deg : ℚ := 12 / 111111

/-- Squared euclidean distance on `(lat, lon)` pairs. -/
def sqDist (p q : ℚ × ℚ) : ℚ := (p.1 - q.1) ^ 2 + (p.2 - q.2) ^ 2

/-- The indices within `eps_deg` (euclidean) of point `i`, itself included:
the neighbourhood query of sklearn's DBSCAN. -/
def neighborIdx (pts : List (ℚ × ℚ)) (i : ℕ) : List ℕ :=
  (List.range pts.length).filter fun j =>
    decide (sqDist (pts.getD i (0, 0)) (pts.getD j (0, 0)) ≤ eps_deg ^ 2)

/-- Core-point test of DBSCAN with `min_samples = 3` (line 317). -/
def isCore (pts : List (ℚ × ℚ)) (i : ℕ) : Bool :=
  decide (3 ≤ (neighborIdx pts i).length)

/-- Breadth-first cluster expansion (model of sklearn's DBSCAN fit): pop an
index, claim it for cluster `c` unless it already belongs to a cluster
(noise may be upgraded to border), and enqueue its neighbourhood when it is
core; `fuel` bounds the recursion. -/
def expandCluster (pts : List (ℚ × ℚ)) (c : ℤ) :
    ℕ → List ℕ → List (Option ℤ) → List (Option ℤ)
  | 0, _, labels => labels
  | _ + 1, [], labels => labels
  | fuel + 1, j :: queue, labels =>
    if (labels.getD j none).isSome ∧ labels.getD j none ≠ some (-1) then
      expandCluster pts c fuel queue labels
    else if isCore pts j then
      expandCluster pts c fuel (queue ++ neighborIdx pts j) (labels.set j (some c))
    else
      expandCluster pts c fuel queue (labels.set j (some c))

/-- DBSCAN main loop over the point indices: an unlabeled core point seeds
a new cluster, an unlabeled non-core point becomes noise (`-1`). -/
def dbscanAux (pts : List (ℚ × ℚ)) :
    List ℕ → ℤ → List (Option ℤ) → List (Option ℤ)
  | [], _, labels => labels
  | i :: rest, c, labels =>
    if (labels.getD i none).isSome then dbscanAux pts rest c labels
    else if isCore pts i then
      dbscanAux pts rest (c + 1)
        (expandCluster pts c ((pts.length + 1) * (pts.length + 1)) [i] labels)
    else dbscanAux pts rest c (labels.set i (some (-1)))

/-- The label array of
`DBSCAN(eps=eps_deg, min_samples=3, metric="euclidean").fit(X).labels_`. -/
def dbscanLabels (pts : List (ℚ × ℚ)) : List ℤ :=
  (dbscanAux pts (List.range pts.length) 0
    (List.replicate pts.length none)).map fun o => o.getD (-1)

/-- One per-trip cluster dict (processing.py lines 390-405). -/
structure Cluster where
  cluster_id : String
  lat : ℚ
  lon : ℚ
  hits : ℕ
  users : ℕ
  last_ts : ℚ
  avg_intensity : ℚ
  avg_stability : ℚ
  mount_state_counts : List (String × ℕ)
  exposure : ℚ
  confidence : ℚ
  priority : ℚ
  deriving DecidableEq

/-- One step of the `mount_states` histogram build (lines 356-360):
increment an existing key or append a new one (python dict insertion
order). -/
def bumpMount (m : List (String × ℕ)) (s : String) : List (String × ℕ) :=
  if m.any fun kv => decide (kv.1 = s) then
    m.map fun kv => if kv.1 = s then (kv.1, kv.2 + 1) else kv
  else m ++ [(s, 1)]

/-- The `mount_states` histogram of a member list; a falsy (empty) state is
skipped (`if state:`). -/
def mountCounts (pts : List Detection) : List (String × ℕ) :=
  pts.foldl
    (fun m p => if p.mount_state = "" then m else bumpMount m p.mount_state) []

/-- The cluster summary (lines 325-405) of the member detections of one
DBSCAN label; `none` for an empty group (`if not pts: continue`).
`sha1hex10` abstracts
`"pc_" + hashlib.sha1(f"{round(lat,4)}:{round(lon,4)}").hexdigest()[:10]`
(line 387-388), whose value no claim inspects. -/
def mkClusterOf (sha1hex10 : ℚ → ℚ → String) (now : ℚ) :
    List Detection → Option Cluster
  | [] => none
  | p :: ps =>
    let lat := ((p :: ps).map fun d => d.lat.getD 0).sum / ((p :: ps).length : ℚ)
    let lon := ((p :: ps).map fun d => d.lon.getD 0).sum / ((p :: ps).length : ℚ)
    let hits := (p :: ps).length
    let last_ts := ps.foldl (fun m q => max m q.ts) p.ts
    let weight_total := ((p :: ps).map fun q => max 0 (1 - q.stability)).sum
    let avg_int :=
      if 0 < weight_total then
        ((p :: ps).map fun q => q.intensity * max 0 (1 - q.stability)).sum /
          weight_total
      else ((p :: ps).map fun q => q.intensity).sum / (hits : ℚ)
    let avg_stability := ((p :: ps).map fun q => q.stability).sum / (hits : ℚ)
    let freshness := max 0 (1 - (Int.floor ((now - last_ts) / 86400) : ℚ) / 60)
    let stability_weight := weight_total / (hits : ℚ)
    let confidence := 3/10 * (min (hits : ℚ) 10 / 10) * stability_weight
      + 6/10 * freshness + 1/10 * avg_int
    let exposure : ℚ := 0
    some { cluster_id := sha1hex10 lat lon, lat := lat, lon := lon,
           hits := hits, users := 1, last_ts := last_ts,
           avg_intensity := avg_int, avg_stability := avg_stability,
           mount_state_counts := mountCounts (p :: ps),
           exposure := exposure, confidence := confidence,
           priority := 6/10 * confidence + 4/10 * exposure }

/-- The per-trip spatial clustering stage (processing.py lines 307-405):
keep geolocated detections, run DBSCAN, summarise each non-noise label.
Python iterates `set(labels)`; the model iterates the distinct labels in
first-occurrence order. -/
def clusterStage (sha1hex10 : ℚ → ℚ → String) (now : ℚ)
    (detections : List Detection) : List Cluster :=
  let det_geo := detections.filter fun d => d.lat.isSome && d.lon.isSome
  if det_geo.isEmpty then []
  else
    let labels := dbscanLabels (det_geo.map fun d => (d.lat.getD 0, d.lon.getD 0))
    (labels.dedup.filter fun l => decide (l ≠ -1)).filterMap fun lbl =>
      mkClusterOf sha1hex10 now
        (((det_geo.zip labels).filter fun p => decide (p.2 = lbl)).map Prod.fst)

/-- `process_trip_payload` (processing.py lines 80-407).  `F` is the
floating-point feature extraction (lines 118-246) as a function of the
samples; `now` the wall clock read at line 363.  The guards are lines
108-110 (empty sample list), 115-116 (missing `timestamp`/`accel` columns:
a column exists iff some sample carries the field) and 125-126 (no
timestamp parses). -/
def process_trip_payload (F : List Sample → List Row)
    (sha1hex10 : ℚ → ℚ → String) (now : ℚ) (samples : List Sample) :
    List Detection × List Cluster :=
  if samples.isEmpty then ([], [])
  else if ¬ (samples.any fun s => s.timestamp.isSome) ∨
      ¬ (samples.any fun s => s.accel.isSome) then ([], [])
  else if (F samples).all (fun r => r.ts.isNone) then ([], [])
  else (detectionsOf (F samples), clusterStage sha1hex10 now (detectionsOf (F samples)))

/-- Concrete sample with a timestamp but no accel. -/
def wsample : Sample :=
  { timestamp := some "2025-01-01T00:00:00Z", latitude := none,
    longitude := none, accuracy_m := none, speed_mps := none,
    accel := none, gyro := none }

/-- Modelled from the spec: the 10/111111-degree grid cell of a geolocated
detection ("round each detection's (lat, lon) into a grid of edge
10/111111 degrees"). -/
def specCell (d : Detection) : ℤ × ℤ :=
  (Int.floor (d.lat.getD 0 / (10/111111 : ℚ)),
   Int.floor (d.lon.getD 0 / (10/111111 : ℚ)))

/-- Modelled from the spec: the nonempty grid cells of a trip's geolocated
detections. -/
def specNonemptyCells (dets : List Detection) : List (ℤ × ℤ) :=
  ((dets.filter fun d => d.lat.isSome && d.lon.isSome).map specCell).dedup

/-- Concrete geolocated detection at the origin. -/
def cdet : Detection :=
  { ts := 0, lat := some 0, lon := some 0, intensity := 5, stability := 0,
    mount_state := "stable" }

example : (detectionsOf wrows).map (fun d => (d.ts, d.intensity)) = [(1, 10), (3, 10)] := by decide

example : (detectionsOf crows).map (fun d => (d.ts, d.intensity)) = [(1, 10)] := by decide

/-- Claim C1: sample `i` of the trip is a candidate iff it is a local maximum
of `z` (strictly above the previous sample's z where one exists, at least the
next sample's z where one exists), its z-score strictly exceeds
`3.5 + stability`, and, whenever any sample of the trip carries a GPS speed,
its own `speed_mps` (missing speed counting as `0`) is at least `3 m/s`;
with no speed anywhere in the trip the speed gate is skipped. -/
theorem candidate_iff (rows : List Row) (i : ℕ) (r : Row)
    (hr : rows[i]? = some r) :
    (i, r) ∈ candidatesIdx rows ↔
      (∃ z, r.z = some z ∧
        (∀ zp, zPrev rows i = some zp → zp < z) ∧
        (∀ zn, zNext rows i = some zn → zn ≤ z) ∧
        base_z + r.stability < z) ∧
      (hasSpeed rows = true → 3 ≤ r.speed.getD 0) := by
  have hmem : (i, r) ∈ rows.enum := List.mk_mem_enum_iff_getElem?.mpr hr
  unfold candidatesIdx
  rw [List.mem_filter]
  simp only [hmem, true_and]
  unfold isCandidate is_peak zGtThresh speed_ok Row.z_thresh
  cases hz : r.z with
  | none => simp [gtOpt]
  | some z =>
    cases hp : zPrev rows i <;> cases hn : zNext rows i <;>
      cases hs : hasSpeed rows <;>
        simp [gtOpt, geOpt, and_assoc, and_comm, and_left_comm]

/-- Witness for `candidate_iff`: sample 1 of the concrete trip `wrows` is a
candidate. -/
theorem candidate_iff_witness :
    (1, wrow 1 (some 10)) ∈ candidatesIdx wrows :=
  (candidate_iff wrows 1 (wrow 1 (some 10)) (by decide)).mpr
    ⟨⟨10, rfl,
      fun zp h => by
        have h0 : zPrev wrows 1 = some 0 := by decide
        rw [h0] at h
        cases h
        decide,
      fun zn h => by
        have h0 : zNext wrows 1 = some 0 := by decide
        rw [h0] at h
        cases h
        decide,
      by decide⟩,
     fun h => by
       have h0 : hasSpeed wrows = false := by decide
       rw [h0] at h
       cases h⟩

/-- The stability column is nonnegative: clipped window scores and the
`0.0` fill value both are. -/
theorem Row.stability_nonneg (r : Row) : 0 ≤ r.stability := by
  unfold Row.stability clip01
  cases r.stabilityRaw
  · exact le_refl 0
  · exact le_max_left 0 _

/-- Every detection emitted by the debounce loop is `mkDet` of a row of its
input list at that row's parsed timestamp. -/
theorem debounce_mem {cands : List Row} {lastTs : Option ℚ} {lastStab : ℚ}
    {d : Detection} (hd : d ∈ debounceAux lastTs lastStab cands) :
    ∃ r ∈ cands, ∃ ts, r.ts = some ts ∧ d = mkDet r ts := by
  induction cands generalizing lastTs lastStab with
  | nil => simp [debounceAux] at hd
  | cons r rest ih =>
    have tail : ∀ {lt : Option ℚ} {ls : ℚ}, d ∈ debounceAux lt ls rest →
        ∃ r' ∈ r :: rest, ∃ ts', r'.ts = some ts' ∧ d = mkDet r' ts' := by
      intro lt ls h
      obtain ⟨r', hr', ts', h1, h2⟩ := ih h
      exact ⟨r', List.mem_cons_of_mem _ hr', ts', h1, h2⟩
    cases hts : r.ts with
    | none =>
      simp only [debounceAux, hts] at hd
      exact tail hd
    | some ts =>
      cases lastTs with
      | none =>
        simp only [debounceAux, hts] at hd
        rcases List.mem_cons.mp hd with h | h
        · exact ⟨r, List.mem_cons_self _ _, ts, hts, h⟩
        · exact tail h
      | some t =>
        by_cases hg : ts - t < base_debounce * (1 + max r.stability lastStab)
        · simp only [debounceAux, hts, if_pos hg] at hd
          exact tail hd
        · simp only [debounceAux, hts, if_neg hg] at hd
          rcases List.mem_cons.mp hd with h | h
          · exact ⟨r, List.mem_cons_self _ _, ts, hts, h⟩
          · exact tail h

/-- After accepting detection `a`, everything the loop accepts later is
chained by `sepR` starting from `a`. -/
theorem debounce_chain (cands : List Row) :
    ∀ a : Detection, List.Chain sepR a (debounceAux (some a.ts) a.stability cands) := by
  induction cands with
  | nil => intro a; rw [debounceAux]; exact List.Chain.nil
  | cons r rest ih =>
    intro a
    cases hts : r.ts with
    | none =>
      simp only [debounceAux, hts]
      exact ih a
    | some ts =>
      by_cases hg : ts - a.ts < base_debounce * (1 + max r.stability a.stability)
      · simp only [debounceAux, hts, if_pos hg]
        exact ih a
      · simp only [debounceAux, hts, if_neg hg]
        refine List.Chain.cons ?_ (ih (mkDet r ts))
        have h1 := not_lt.mp hg
        unfold sepR mkDet
        dsimp only
        rw [max_comm]
        linarith

/-- The full debounce output (initial `last_ts = None`) is `sepR`-chained. -/
theorem debounce_chain' (cands : List Row) (lastStab : ℚ) :
    List.Chain' sepR (debounceAux none lastStab cands) := by
  induction cands with
  | nil => rw [debounceAux]; exact trivial
  | cons r rest ih =>
    cases hts : r.ts with
    | none =>
      simp only [debounceAux, hts]
      exact ih
    | some ts =>
      simp only [debounceAux, hts]
      exact debounce_chain rest (mkDet r ts)

/-- `sepR` composes across an intermediate accepted detection, given the
endpoint stabilities are nonnegative. -/
theorem sepR_trans {a b c : Detection} (ha : 0 ≤ a.stability)
    (hc : 0 ≤ c.stability) (hab : sepR a b) (hbc : sepR b c) : sepR a c := by
  unfold sepR base_debounce at hab hbc ⊢
  have h1 : a.stability ≤ max a.stability b.stability := le_max_left _ _
  have h2 : c.stability ≤ max b.stability c.stability := le_max_right _ _
  have h3 : max a.stability c.stability ≤ a.stability + c.stability :=
    max_le (le_add_of_nonneg_right hc) (le_add_of_nonneg_left ha)
  linarith

/-- From a `sepR`-chain rooted at `a`, every later element is separated
from `a`. -/
theorem chain_head_sep :
    ∀ (l : List Detection) (a : Detection), List.Chain sepR a l →
      (∀ d ∈ l, 0 ≤ d.stability) → 0 ≤ a.stability →
      ∀ (j : ℕ) (b : Detection), l[j]? = some b → sepR a b := by
  intro l
  induction l with
  | nil => intro a _ _ _ j b hb; simp at hb
  | cons c l' ih =>
    intro a hchain hnn ha j b hb
    rcases hchain with _ | ⟨hac, hcl⟩
    cases j with
    | zero =>
      have hcb : c = b := by simpa using hb
      exact hcb ▸ hac
    | succ k =>
      have hb' : l'[k]? = some b := by simpa using hb
      have hbl : b ∈ l' := List.getElem?_mem hb'
      have hcb := ih c hcl (fun d hd => hnn d (List.mem_cons_of_mem _ hd))
        (hnn c (List.mem_cons_self _ _)) k b hb'
      exact sepR_trans ha (hnn b (List.mem_cons_of_mem _ hbl)) hac hcb

/-- A `sepR`-chained list of nonnegative-stability detections is pairwise
separated in index order. -/
theorem chain'_pairwise_sep :
    ∀ (l : List Detection), List.Chain' sepR l →
      (∀ d ∈ l, 0 ≤ d.stability) →
      ∀ (i j : ℕ) (a b : Detection), i < j → l[i]? = some a →
        l[j]? = some b → sepR a b := by
  intro l
  induction l with
  | nil => intro _ _ i j a b _ ha; simp at ha
  | cons c l' ih =>
    intro hch hnn i j a b hij ha hb
    cases i with
    | zero =>
      have hca : c = a := by simpa using ha
      subst hca
      cases j with
      | zero => omega
      | succ k =>
        have hb' : l'[k]? = some b := by simpa using hb
        exact chain_head_sep l' c hch
          (fun d hd => hnn d (List.mem_cons_of_mem _ hd))
          (hnn c (List.mem_cons_self _ _)) k b hb'
    | succ i' =>
      cases j with
      | zero => omega
      | succ j' =>
        have ha' : l'[i']? = some a := by simpa using ha
        have hb' : l'[j']? = some b := by simpa using hb
        exact ih (List.Chain'.tail hch)
          (fun d hd => hnn d (List.mem_cons_of_mem _ hd))
          i' j' a b (by omega) ha' hb'

/-- Claim C2: any two detections accepted within one trip, taken in
acceptance order, have timestamps at least
`base_debounce * (1 + max(stability_a, stability_b))` seconds apart. -/
theorem detections_min_gap (rows : List Row) (i j : ℕ) (di dj : Detection)
    (hij : i < j) (hi : (detectionsOf rows)[i]? = some di)
    (hj : (detectionsOf rows)[j]? = some dj) :
    base_debounce * (1 + max di.stability dj.stability) ≤ dj.ts - di.ts := by
  have hnn : ∀ d ∈ detectionsOf rows, 0 ≤ d.stability := by
    intro d hd
    obtain ⟨r, _, ts, _, rfl⟩ := debounce_mem hd
    exact Row.stability_nonneg r
  have hch : List.Chain' sepR (detectionsOf rows) := debounce_chain' _ _
  have hsep := chain'_pairwise_sep _ hch hnn i j di dj hij hi hj
  unfold sepR at hsep
  linarith

/-- Witness for `detections_min_gap`: the two detections of the concrete
trip `wrows` are at least one second apart. -/
theorem detections_min_gap_witness :
    base_debounce *
        (1 + max (⟨1, none, none, 10, 0, "stable"⟩ : Detection).stability
          (⟨3, none, none, 10, 0, "stable"⟩ : Detection).stability) ≤
      (⟨3, none, none, 10, 0, "stable"⟩ : Detection).ts -
        (⟨1, none, none, 10, 0, "stable"⟩ : Detection).ts :=
  detections_min_gap wrows 0 1 _ _ (by decide) (by decide) (by decide)

/-- Counterexample to claim C3: in the concrete trip `crows` the only
candidate is sample 1 (z = 10), while the argmax of z within ±5 samples of
it is 20 (at sample 3), yet the emitted detection carries the candidate's
own z-score 10 and timestamp 1 — no detection carries the refined peak. -/
theorem peak_refinement_counterexample :
    (detectionsOf crows).map (fun d => (d.ts, d.intensity)) = [(1, 10)] ∧
    specRefinedPeakZ crows 1 = some 20 ∧
    ∀ d ∈ detectionsOf crows, some d.intensity ≠ specRefinedPeakZ crows 1 := by
  decide

/-- Claim C3 as amended: no ±5-sample peak refinement is performed; each
accepted candidate is emitted directly, the detection carrying the
candidate row's own timestamp, coordinates, z-score, stability and mount
state. -/
theorem detection_from_candidate (rows : List Row) (d : Detection)
    (hd : d ∈ detectionsOf rows) :
    ∃ r ∈ candidates rows, r.ts = some d.ts ∧ d.lat = r.lat ∧ d.lon = r.lon ∧
      d.intensity = r.z.getD 0 ∧ d.stability = r.stability ∧
      d.mount_state = r.mount_state := by
  obtain ⟨r, hr, ts, hts, rfl⟩ := debounce_mem hd
  exact ⟨r, hr, hts, rfl, rfl, rfl, rfl, rfl⟩

/-- Witness for `detection_from_candidate` at the concrete trip `crows`. -/
theorem detection_from_candidate_witness :
    ∃ r ∈ candidates crows,
      r.ts = some (⟨1, none, none, 10, 0, "stable"⟩ : Detection).ts ∧
      (⟨1, none, none, 10, 0, "stable"⟩ : Detection).lat = r.lat ∧
      (⟨1, none, none, 10, 0, "stable"⟩ : Detection).lon = r.lon ∧
      (⟨1, none, none, 10, 0, "stable"⟩ : Detection).intensity = r.z.getD 0 ∧
      (⟨1, none, none, 10, 0, "stable"⟩ : Detection).stability = r.stability ∧
      (⟨1, none, none, 10, 0, "stable"⟩ : Detection).mount_state = r.mount_state :=
  detection_from_candidate crows _ (by decide)

/-- Every row the candidate mask keeps has a non-`NaN` z-score strictly
above its dynamic threshold `base_z + stability`. -/
theorem candidates_z_spec (rows : List Row) (r : Row)
    (hr : r ∈ candidates rows) :
    ∃ z, r.z = some z ∧ base_z + r.stability < z := by
  unfold candidates candidatesIdx at hr
  obtain ⟨⟨i, r'⟩, hmem, hsnd⟩ := List.mem_map.mp hr
  obtain ⟨-, hcand⟩ := List.mem_filter.mp hmem
  subst hsnd
  unfold isCandidate zGtThresh Row.z_thresh at hcand
  rcases Bool.and_eq_true_iff.mp hcand with ⟨h1, -⟩
  rcases Bool.and_eq_true_iff.mp h1 with ⟨-, h2⟩
  cases hz : r'.z with
  | none => rw [hz] at h2; cases h2
  | some z =>
    rw [hz] at h2
    exact ⟨z, rfl, of_decide_eq_true h2⟩

/-- Claim C10: every emitted detection has intensity strictly greater than
3.5, since candidates need a non-`NaN` z above `3.5 + stability` and the
stability column is nonnegative (clipped to `[0,1]`, missing filled 0). -/
theorem detection_intensity_gt (rows : List Row) (d : Detection)
    (hd : d ∈ detectionsOf rows) : (7 : ℚ)/2 < d.intensity := by
  obtain ⟨r, hr, ts, hts, rfl⟩ := debounce_mem hd
  obtain ⟨z, hz, hgt⟩ := candidates_z_spec rows r hr
  have h0 : (0 : ℚ) ≤ r.stability := Row.stability_nonneg r
  have hint : (mkDet r ts).intensity = z := by simp [mkDet, hz]
  rw [hint]
  unfold base_z at hgt
  linarith

/-- Witness for `detection_intensity_gt` at the concrete trip `crows`. -/
theorem detection_intensity_gt_witness :
    (7 : ℚ)/2 < (⟨1, none, none, 10, 0, "stable"⟩ : Detection).intensity :=
  detection_intensity_gt crows _ (by decide)

/-- Counterexample to claim C6: a window score below 0.25 is labelled
`"stable"`, not `"mounted"`, and the detections of the concrete trip
`wrows` carry the mount state `"stable"`, which is not in the claimed set
`{mounted, handheld, loose, unknown}`. -/
theorem stability_label_counterexample :
    stability_label (some 0) = "stable" ∧ stability_label (some 0) ≠ "mounted" ∧
    (detectionsOf wrows).map Detection.mount_state = ["stable", "stable"] ∧
    "stable" ∉ (["mounted", "handheld", "loose", "unknown"] : List String) := by
  refine ⟨rfl, by decide, by decide, by decide⟩

/-- Claim C6 as amended: a window score below 0.25 maps to `"stable"`
(not `"mounted"`), below 0.65 to `"loose"`, otherwise `"handheld"`, and a
non-finite score to `"unknown"`; every detection's mount state is one of
`{stable, loose, handheld, unknown}`. -/
theorem stability_label_spec :
    (∀ q : ℚ, (q < 1/4 → stability_label (some q) = "stable") ∧
      (1/4 ≤ q → q < 13/20 → stability_label (some q) = "loose") ∧
      (13/20 ≤ q → stability_label (some q) = "handheld")) ∧
    stability_label none = "unknown" ∧
    ∀ (rows : List Row) (d : Detection), d ∈ detectionsOf rows →
      d.mount_state ∈ (["stable", "loose", "handheld", "unknown"] : List String) := by
  refine ⟨fun q => ⟨fun h1 => ?_, fun h1 h2 => ?_, fun h1 => ?_⟩, rfl, ?_⟩
  · simp only [stability_label]
    rw [if_pos h1]
  · simp only [stability_label]
    rw [if_neg (not_lt.mpr h1), if_pos h2]
  · simp only [stability_label]
    rw [if_neg (not_lt.mpr (le_trans (by norm_num) h1)), if_neg (not_lt.mpr h1)]
  · intro rows d hd
    obtain ⟨r, _, ts, _, rfl⟩ := debounce_mem hd
    show r.mount_state ∈ _
    unfold Row.mount_state stability_label
    cases r.stabilityRaw with
    | none => simp
    | some s =>
      dsimp only
      split
      · simp
      · split <;> simp

/-- Witness for `stability_label_spec`: the three numeric branches at
concrete scores, and the concrete detections of `wrows`. -/
theorem stability_label_spec_witness :
    stability_label (some (1/10)) = "stable" ∧
    stability_label (some (1/2)) = "loose" ∧
    stability_label (some (9/10)) = "handheld" ∧
    (⟨1, none, none, 10, 0, "stable"⟩ : Detection).mount_state ∈
      (["stable", "loose", "handheld", "unknown"] : List String) :=
  ⟨(stability_label_spec.1 (1/10)).1 (by norm_num),
   (stability_label_spec.1 (1/2)).2.1 (by norm_num) (by norm_num),
   (stability_label_spec.1 (9/10)).2.2 (by norm_num),
   stability_label_spec.2.2 wrows _ (by decide)⟩

/-- `clip01` is monotone. -/
theorem clip01_mono {a b : ℚ} (h : a ≤ b) : clip01 a ≤ clip01 b :=
  max_le_max le_rfl (min_le_min le_rfl h)

/-- `clip01` is nonnegative. -/
theorem clip01_nonneg (a : ℚ) : 0 ≤ clip01 a := le_max_left 0 _

/-- Claim C4: the cross-trip confidence is monotone nondecreasing in the hit
count at fixed users, total trips, average intensity, average stability,
last timestamp and current time, for any monotone positive model of `exp`. -/
theorem compute_confidence_mono_hits (E : ℚ → ℚ) (hE : Monotone E)
    (hpos : ∀ x, 0 < E x) (h1 h2 users total_trips : ℤ)
    (avg_intensity avg_stability last_ts now_utc : ℚ) (h12 : h1 ≤ h2) :
    compute_confidence E h1 users total_trips avg_intensity avg_stability
        last_ts now_utc ≤
      compute_confidence E h2 users total_trips avg_intensity avg_stability
        last_ts now_utc := by
  unfold compute_confidence
  by_cases htt : total_trips ≤ 0
  · rw [if_pos (Or.inl htt), if_pos (Or.inl htt)]
  by_cases hu : users ≤ 0
  · rw [if_pos (Or.inr (Or.inr hu)), if_pos (Or.inr (Or.inr hu))]
  by_cases hh1 : h1 ≤ 0
  · rw [if_pos (Or.inr (Or.inl hh1))]
    split
    · exact le_refl 0
    · exact clip01_nonneg _
  · have hh2 : ¬ h2 ≤ 0 := fun h => hh1 (le_trans h12 h)
    rw [if_neg (by push_neg; exact ⟨lt_of_not_le htt, ⟨lt_of_not_le hh1, lt_of_not_le hu⟩⟩),
      if_neg (by push_neg; exact ⟨lt_of_not_le htt, ⟨lt_of_not_le hh2, lt_of_not_le hu⟩⟩)]
    apply clip01_mono
    have hht : E (-(h2 : ℚ) / 3) ≤ E (-(h1 : ℚ) / 3) := by
      apply hE
      have : (h1 : ℚ) ≤ (h2 : ℚ) := by exact_mod_cast h12
      linarith
    have hrec : 0 ≤ E (-max 0 ((now_utc - last_ts) / 86400) / 60) :=
      le_of_lt (hpos _)
    apply mul_le_mul_of_nonneg_right _ hrec
    linarith

/-- Witness for `compute_confidence_mono_hits` at concrete inputs. -/
theorem compute_confidence_mono_hits_witness :
    compute_confidence expLike 1 1 1 0 0 0 0 ≤
      compute_confidence expLike 2 1 1 0 0 0 0 :=
  compute_confidence_mono_hits expLike
    (fun _ _ hab => max_le_max le_rfl (add_le_add_right hab 1))
    (fun x => lt_of_lt_of_le zero_lt_one (le_max_left 1 (x + 1)))
    1 2 1 1 0 0 0 0 (by norm_num)

/-- The code's linearly interpolated `np.quantile` at `q = 3/4` agrees with
the spec's percentile formula. -/
theorem npQuantile_eq_spec (xs : List ℚ) :
    npQuantile (3/4) xs = specPctAux (sortAsc xs) := by
  unfold npQuantile
  generalize sortAsc xs = s
  unfold linInterp specPctAux
  rcases s with _ | ⟨a, _ | ⟨b, t⟩⟩
  · decide
  · norm_num
  · have h1 : ¬ (a :: b :: t).length ≤ 1 := by
      simp [List.length_cons]
    rw [if_neg h1]
    set k : ℚ := 3/4 * (((a :: b :: t).length : ℚ) - 1) with hk
    by_cases hfc : Int.floor k = Int.ceil k
    · rw [if_pos hfc]
      have hkf : ((Int.floor k : ℤ) : ℚ) = k := by
        refine le_antisymm (Int.floor_le k) ?_
        rw [hfc]
        exact Int.le_ceil k
      rw [hkf]
      ring
    · rw [if_neg hfc]
      have hcf : Int.ceil k = Int.floor k + 1 := by
        have hle := Int.floor_le_ceil k
        have hge := Int.ceil_le_floor_add_one k
        omega
      have hcq : ((Int.ceil k : ℤ) : ℚ) = ((Int.floor k : ℤ) : ℚ) + 1 := by
        exact_mod_cast hcf
      rw [hcq]
      ring

/-- The `size > 0` guard plus `np.quantile` of main.py line 444 computes
exactly the spec's percentile (which is 0 on an empty list as well). -/
theorem theta_quantile_eq (confs : List ℚ) :
    (if 0 < confs.length then npQuantile (3/4) confs else 0) =
      specPercentile75 confs := by
  by_cases h : 0 < confs.length
  · rw [if_pos h]
    exact npQuantile_eq_spec confs
  · rw [if_neg h]
    have hnil : confs = [] := List.length_eq_zero.mp (by omega)
    subst hnil
    decide

/-- Claim C5: the shaped cluster list equals the spec's description — keep
exactly the clusters whose confidence reaches the spec threshold
(`max(0, min_conf)` outside dashboard mode; `min_conf` in dashboard mode
when positive, else the linearly interpolated 75th percentile of the
confidences), truncating to `limit` entries only when `limit > 0`; and the
spec percentile of a single confidence is that confidence itself. -/
theorem shape_clusters_spec (clusters : List ApiCluster) (min_conf : ℚ)
    (limit : ℤ) (dashboard : Bool) :
    (shape_clusters clusters min_conf limit dashboard =
      if 0 < limit then
        (clusters.filter fun c =>
          decide (specTheta dashboard min_conf
            (clusters.map fun x => x.confidence) ≤ c.confidence)).take limit.toNat
      else
        clusters.filter fun c =>
          decide (specTheta dashboard min_conf
            (clusters.map fun x => x.confidence) ≤ c.confidence)) ∧
    ∀ x : ℚ, specPercentile75 [x] = x := by
  constructor
  · have hθ : codeTheta dashboard min_conf (clusters.map fun x => x.confidence) =
        specTheta dashboard min_conf (clusters.map fun x => x.confidence) := by
      unfold codeTheta specTheta
      cases dashboard with
      | false => rfl
      | true =>
        rw [if_pos rfl, if_pos rfl]
        by_cases hm : 0 < min_conf
        · rw [if_pos hm, if_pos hm]
        · rw [if_neg hm, if_neg hm]
          exact theta_quantile_eq _
    unfold shape_clusters codeLimit
    rw [hθ]
    set filtered := clusters.filter fun c =>
      decide (specTheta dashboard min_conf
        (clusters.map fun x => x.confidence) ≤ c.confidence) with hf
    by_cases hl : 0 < limit
    · rw [if_pos hl]
      by_cases hlen : limit < (filtered.length : ℤ)
      · rw [if_pos ⟨hl, hlen⟩]
      · rw [if_neg fun h => hlen h.2]
        rw [List.take_of_length_le (by omega)]
    · rw [if_neg fun h => hl h.1, if_neg hl]
  · intro x
    rfl

/-- Claim C9: the detection component of `process_trip_payload` does not
depend on the wall clock (`datetime.now` is only read for the cluster
summaries' freshness term), so reprocessing the same payload at any time
yields the identical detection list. -/
theorem process_detections_clock_independent (F : List Sample → List Row)
    (sha1hex10 : ℚ → ℚ → String) (now1 now2 : ℚ) (samples : List Sample) :
    (process_trip_payload F sha1hex10 now1 samples).1 =
      (process_trip_payload F sha1hex10 now2 samples).1 := by
  unfold process_trip_payload
  split
  · rfl
  · split
    · rfl
    · split <;> rfl

/-- Claim C7: a payload with an empty sample list, or whose samples carry
no `accel` field at all, returns empty detections and clusters (the guard
returns before any processing, so no error can arise). -/
theorem process_degenerate (F : List Sample → List Row)
    (sha1hex10 : ℚ → ℚ → String) (now : ℚ) (samples : List Sample)
    (h : samples = [] ∨ ∀ s ∈ samples, s.accel = none) :
    process_trip_payload F sha1hex10 now samples = ([], []) := by
  unfold process_trip_payload
  rcases h with rfl | h
  · rfl
  · by_cases he : samples.isEmpty
    · rw [if_pos he]
    · have hacc : ¬ (samples.any fun s => s.accel.isSome) = true := by
        rw [List.any_eq_true]
        rintro ⟨s, hs, hsome⟩
        rw [h s hs] at hsome
        cases hsome
      rw [if_neg he, if_pos (Or.inr hacc)]

/-- Witness for `process_degenerate`: one sample without accel. -/
theorem process_degenerate_witness :
    (∀ s ∈ [wsample], s.accel = none) ∧
    process_trip_payload (fun _ => []) (fun _ _ => "") 0 [wsample] = ([], []) :=
  ⟨by decide, process_degenerate _ _ _ _ (Or.inr (by decide))⟩

/-- Counterexample to claim C8: a trip with one geolocated detection has one
nonempty grid cell, yet the code emits no cluster summary at all — the
per-trip layer is DBSCAN with `min_samples = 3`, which marks the lone point
as noise, not a grid grouping that emits one summary per nonempty cell. -/
theorem micro_cluster_counterexample :
    clusterStage (fun _ _ => "") 0 [cdet] = [] ∧
    (specNonemptyCells [cdet]).length = 1 := by
  decide

/-- With fewer than 3 points no point of the trip is a DBSCAN core point. -/
theorem isCore_false_of_few (pts : List (ℚ × ℚ)) (h : pts.length < 3)
    (i : ℕ) : isCore pts i = false := by
  unfold isCore
  rw [decide_eq_false_iff_not]
  intro h3
  have hle : (neighborIdx pts i).length ≤ pts.length := by
    unfold neighborIdx
    calc (List.filter _ (List.range pts.length)).length
        ≤ (List.range pts.length).length := List.length_filter_le _ _
      _ = pts.length := List.length_range _
  omega

/-- When no point is core, the DBSCAN loop only ever writes noise labels. -/
theorem dbscanAux_noise (pts : List (ℚ × ℚ))
    (hcore : ∀ i, isCore pts i = false) :
    ∀ (l : List ℕ) (c : ℤ) (labels : List (Option ℤ)),
      (∀ o ∈ labels, o = none ∨ o = some (-1)) →
      ∀ o ∈ dbscanAux pts l c labels, o = none ∨ o = some (-1) := by
  intro l
  induction l with
  | nil =>
    intro c labels hinv o ho
    rw [dbscanAux] at ho
    exact hinv o ho
  | cons i rest ih =>
    intro c labels hinv o ho
    simp only [dbscanAux] at ho
    by_cases hl : (labels.getD i none).isSome
    · rw [if_pos hl] at ho
      exact ih c labels hinv o ho
    · have hnc : ¬ (isCore pts i = true) := by
        rw [hcore i]
        exact Bool.false_ne_true
      rw [if_neg hl, if_neg hnc] at ho
      refine ih c _ ?_ o ho
      intro o' ho'
      rcases List.mem_or_eq_of_mem_set ho' with h' | h'
      · exact hinv o' h'
      · exact Or.inr h'

/-- When no point is core, every DBSCAN label is `-1`. -/
theorem dbscanLabels_noise (pts : List (ℚ × ℚ))
    (hcore : ∀ i, isCore pts i = false) :
    ∀ x ∈ dbscanLabels pts, x = -1 := by
  intro x hx
  unfold dbscanLabels at hx
  obtain ⟨o, ho, rfl⟩ := List.mem_map.mp hx
  have hinv : ∀ o' ∈ List.replicate pts.length (none : Option ℤ),
      o' = none ∨ o' = some (-1) :=
    fun o' ho' => Or.inl (List.eq_of_mem_replicate ho')
  rcases dbscanAux_noise pts hcore _ 0 _ hinv o ho with rfl | rfl
  · rfl
  · rfl

/-- Claim C8 as amended: the per-trip cluster layer is DBSCAN with
`eps = 12/111111` degrees and `min_samples = 3`, not a 10/111111-degree
grid emitting one summary per nonempty cell; in particular a trip with
fewer than 3 geolocated detections emits no cluster summary at all. -/
theorem cluster_stage_few_detections (sha1hex10 : ℚ → ℚ → String) (now : ℚ)
    (dets : List Detection)
    (h : (dets.filter fun d => d.lat.isSome && d.lon.isSome).length < 3) :
    clusterStage sha1hex10 now dets = [] := by
  simp only [clusterStage]
  by_cases he : (dets.filter fun d => d.lat.isSome && d.lon.isSome).isEmpty
  · rw [if_pos he]
  · rw [if_neg he]
    have hcore : ∀ i, isCore
        ((dets.filter fun d => d.lat.isSome && d.lon.isSome).map
          fun d => (d.lat.getD 0, d.lon.getD 0)) i = false := by
      intro i
      apply isCore_false_of_few
      rw [List.length_map]
      exact h
    have hfil : (List.filter (fun l => decide (l ≠ -1))
        (dbscanLabels ((dets.filter fun d => d.lat.isSome && d.lon.isSome).map
          fun d => (d.lat.getD 0, d.lon.getD 0))).dedup) = [] := by
      rw [List.filter_eq_nil_iff]
      intro a ha
      have : a = -1 := dbscanLabels_noise _ hcore a (List.mem_dedup.mp ha)
      simp [this]
    rw [hfil]
    rfl

/-- Witness for `cluster_stage_few_detections`: the single-detection trip. -/
theorem cluster_stage_few_detections_witness :
    (([cdet].filter fun d => d.lat.isSome && d.lon.isSome).length < 3) ∧
    clusterStage (fun _ _ => "pc_") 0 [cdet] = [] :=
  ⟨by decide, cluster_stage_few_detections _ 0 [cdet] (by decide)⟩

end OuaaJoura
